import Mathlib

/-!
Verification of the PitchGuard encrypted-submission analysis pipeline
(`src/app/api/analyze-pitch/route.ts` and `src/utils/encryption.ts`).

Shallow embedding conventions:
  * Bytes are `ℕ` with explicit `< 256` bounds where they matter.
  * JavaScript numbers are modelled as exact rationals (`ℚ`); `Math.round`
    is the Mathlib `round` (both are `⌊x + 1/2⌋`).
  * Platform primitives that the repository code calls but does not define
    (AES-GCM via `crypto`, `TextEncoder`/`TextDecoder`, SHA-256, JS number
    printing, `Math.sin`-based randomness, `Date.now()`) are parameters of
    the embedded functions; their contracts appear as hypotheses.
  * The Node call `Buffer.from(s, base64)` never throws for string input (it decodes
    leniently); it is modelled by a total function that is exact on
    canonically padded base64 and returns `[]` on malformed input.
  * Fallible code returns `Option`.
-/

namespace PitchGuard

/-! ### Base64 (RFC 4648), modelling `btoa` and `Buffer.from(_, base64)` -/

def b64Chars : List Char :=
  ['A', 'B', 'C', 'D', 'E', 'F', 'G', 'H', 'I', 'J', 'K', 'L', 'M',
   'N', 'O', 'P', 'Q', 'R', 'S', 'T', 'U', 'V', 'W', 'X', 'Y', 'Z',
   'a', 'b', 'c', 'd', 'e', 'f', 'g', 'h', 'i', 'j', 'k', 'l', 'm',
   'n', 'o', 'p', 'q', 'r', 's', 't', 'u', 'v', 'w', 'x', 'y', 'z',
   '0', '1', '2', '3', '4', '5', '6', '7', '8', '9', '+', '/']

def sextetChar (n : ℕ) : Char := b64Chars.getD n 'A'

def charSextet (c : Char) : Option ℕ := b64Chars.findIdx? (· == c)

/-- Encode a byte list as base64 characters (canonical padding). -/
def b64EncodeList : List ℕ → List Char
  | [] => []
  | [a] => [sextetChar (a / 4), sextetChar (a % 4 * 16), '=', '=']
  | [a, b] => [sextetChar (a / 4), sextetChar (a % 4 * 16 + b / 16),
               sextetChar (b % 16 * 4), '=']
  | a :: b :: c :: rest =>
      sextetChar (a / 4) :: sextetChar (a % 4 * 16 + b / 16) ::
      sextetChar (b % 16 * 4 + c / 64) :: sextetChar (c % 64) ::
      b64EncodeList rest

/-- Decode canonically padded base64 characters back to bytes. -/
def b64DecodeList : List Char → Option (List ℕ)
  | [] => some []
  | c1 :: c2 :: c3 :: c4 :: rest =>
      match charSextet c1, charSextet c2 with
      | some s1, some s2 =>
        if c3 = '=' then
          if c4 = '=' ∧ rest = [] then some [s1 * 4 + s2 / 16] else none
        else
          match charSextet c3 with
          | some s3 =>
            if c4 = '=' then
              if rest = [] then some [s1 * 4 + s2 / 16, s2 % 16 * 16 + s3 / 4]
              else none
            else
              match charSextet c4 with
              | some s4 =>
                (b64DecodeList rest).map
                  (fun bs => (s1 * 4 + s2 / 16) :: (s2 % 16 * 16 + s3 / 4) ::
                             (s3 % 4 * 64 + s4) :: bs)
              | none => none
          | none => none
      | _, _ => none
  | _ => none

theorem charSextet_sextetChar : ∀ n < 64, charSextet (sextetChar n) = some n := by decide

theorem sextetChar_ne_eq : ∀ n < 64, sextetChar n ≠ '=' := by decide

theorem sextDiv16 {r u : ℕ} (hu : u < 16) : (r * 16 + u) / 16 = r := by omega

theorem sextMod16 {r u : ℕ} (hu : u < 16) : (r * 16 + u) % 16 = u := by omega

theorem sextDiv4 {v w : ℕ} (hw : w < 4) : (v * 4 + w) / 4 = v := by omega

theorem sextMod4 {v w : ℕ} (hw : w < 4) : (v * 4 + w) % 4 = w := by omega

theorem b64_roundtrip : ∀ (l : List ℕ), (∀ b ∈ l, b < 256) →
    b64DecodeList (b64EncodeList l) = some l
  | [], _ => rfl
  | [a], h => by
      have ha : a < 256 := h a (by simp)
      have h1 : a / 4 < 64 := by omega
      have h2 : a % 4 * 16 < 64 := by omega
      simp only [b64EncodeList, b64DecodeList,
        charSextet_sextetChar _ h1, charSextet_sextetChar _ h2]
      simp
      omega
  | [a, b], h => by
      have ha : a < 256 := h a (by simp)
      have hb : b < 256 := h b (by simp)
      have h1 : a / 4 < 64 := by omega
      have h2 : a % 4 * 16 + b / 16 < 64 := by omega
      have h3 : b % 16 * 4 < 64 := by omega
      have hne3 : sextetChar (b % 16 * 4) ≠ '=' := sextetChar_ne_eq _ h3
      simp only [b64EncodeList, b64DecodeList,
        charSextet_sextetChar _ h1, charSextet_sextetChar _ h2,
        charSextet_sextetChar _ h3, hne3]
      simp
      rw [sextDiv16 (by omega), sextMod16 (by omega)]
      exact ⟨by omega, by omega⟩
  | a :: b :: c :: rest, h => by
      have ha : a < 256 := h a (by simp)
      have hb : b < 256 := h b (by simp)
      have hc : c < 256 := h c (by simp)
      have h1 : a / 4 < 64 := by omega
      have h2 : a % 4 * 16 + b / 16 < 64 := by omega
      have h3 : b % 16 * 4 + c / 64 < 64 := by omega
      have h4 : c % 64 < 64 := by omega
      have hne3 : sextetChar (b % 16 * 4 + c / 64) ≠ '=' := sextetChar_ne_eq _ h3
      have hne4 : sextetChar (c % 64) ≠ '=' := sextetChar_ne_eq _ h4
      have ih := b64_roundtrip rest (fun x hx => h x (by simp [hx]))
      simp only [b64EncodeList, b64DecodeList,
        charSextet_sextetChar _ h1, charSextet_sextetChar _ h2,
        charSextet_sextetChar _ h3, charSextet_sextetChar _ h4,
        hne3, hne4, ih]
      simp
      rw [sextDiv16 (by omega), sextMod16 (by omega),
        sextDiv4 (by omega), sextMod4 (by omega)]
      exact ⟨by omega, by omega, by omega⟩

/-- Encoding as `btoa` does, over a binary string of the given bytes. -/
def b64Encode (l : List ℕ) : String := String.mk (b64EncodeList l)

/-- Models the Node call `Buffer.from(s, base64)`: never throws; exact on
canonically padded base64; `[]` abstracts the lenient salvage of
malformed input. -/
def bufferFromBase64 (s : String) : List ℕ := (b64DecodeList s.data).getD []

theorem bufferFromBase64_b64Encode (l : List ℕ) (h : ∀ b ∈ l, b < 256) :
    bufferFromBase64 (b64Encode l) = l := by
  simp only [bufferFromBase64, b64Encode]
  rw [b64_roundtrip l h]
  rfl

/-! ### Data model (`route.ts` lines 231-243, 453-476) -/

/-- The four score fields of `interface Scores`. -/
structure Scores where
  clarity : ℚ
  originality : ℚ
  team_strength : ℚ
  market_fit : ℚ
deriving DecidableEq, Repr

/-- Embeds `interface AnalysisResult`: the only data returned on success. -/
structure AnalysisResult where
  scores : Scores
  receipt : String
  timestamp : String
  model : String
deriving DecidableEq, Repr

/-- The JSON body of POST /score. `Option` marks field presence (the route
checks `field in body`); fields are modelled at their expected string type. -/
structure ScoreRequest where
  ciphertext : Option String
  aes_key : Option String
  iv : Option String
  model : Option String
deriving DecidableEq, Repr

inductive ResponseBody where
  | result (r : AnalysisResult)
  | err (msg : String)
deriving DecidableEq, Repr

structure Response where
  status : ℕ
  body : ResponseBody
deriving DecidableEq, Repr

/-! ### Input sanitizer (`sanitizeInput`, route.ts lines 246-265) -/

/-- JavaScript `String.prototype.trim` whitespace (the characters relevant
here; the exact set only matters through chars-subset facts). -/
def isJsWs (c : Char) : Bool :=
  c == ' ' || c == '\t' || c == '\n' || c == '\r' ||
  c == '\x0b' || c == '\x0c' || c == Char.ofNat 160 || c == Char.ofNat 65279

def jsTrim (l : List Char) : List Char :=
  ((l.dropWhile isJsWs).reverse.dropWhile isJsWs).reverse

/-- Embeds `sanitizeInput`: five global `replace` calls stripping `<ch>`, then either
truncation to `MAX_PITCH_LENGTH = 10000` (no trim on that path) or `trim()`. -/
def sanitizeInput (text : String) : String :=
  let sanitized :=
    ((((text.data.filter (fun c => !(c == '<'))).filter
        (fun c => !(c == '>'))).filter
        (fun c => !(c == '&'))).filter
        (fun c => !(c == Char.ofNat 34))).filter
        (fun c => !(c == Char.ofNat 39))
  if sanitized.length > 10000 then String.mk (sanitized.take 10000)
  else String.mk (jsTrim sanitized)

/-! ### Mock scorer (`getMockScores`, route.ts lines 309-322) -/

/-- Embeds `getMockScores`. `rand` is the embedded
`(seed) => { const x = Math.sin(seed) * 10000; return x - Math.floor(x) }`;
its value always lies in `[0, 1)`, which enters theorems as a hypothesis.
`now` is `Date.now()` in milliseconds; `Math.round` is `round`. -/
def getMockScores (rand : ℕ → ℚ) (now : ℕ) : Scores :=
  let seed := now / 3600000
  { clarity := ((round ((rand seed * 3 + 7) * 10) : ℤ) : ℚ) / 10
    originality := ((round ((rand (seed + 1) * (5/2) + 13/2) * 10) : ℤ) : ℚ) / 10
    team_strength := ((round ((rand (seed + 2) * (5/2) + 6) * 10) : ℤ) : ℚ) / 10
    market_fit := ((round ((rand (seed + 3) * (27/10) + 13/2) * 10) : ℤ) : ℚ) / 10 }

/-! ### Upstream tier (`analyzeWithMistral`, route.ts lines 325-427) -/

/-- The parsed JSON object of a 2xx OpenRouter reply: each required key is
either present with a numeric value (`some q`) or missing/non-numeric
(`none`). -/
structure RawScores where
  clarity : Option ℚ
  originality : Option ℚ
  team_strength : Option ℚ
  market_fit : Option ℚ
deriving DecidableEq, Repr

/-- Environment outcome of the single upstream fetch: network failure or
30s-timeout abort, a non-2xx status, or a 2xx body whose content parsed to
`some raw` (`none` = empty content or invalid JSON). -/
inductive UpstreamOutcome where
  | netError
  | timeout
  | non2xx (status : ℕ)
  | okBody (parsed : Option RawScores)
deriving DecidableEq, Repr

/-- Embeds `analyzeWithMistral`: one upstream attempt; every failure path
(missing key, network/timeout, non-2xx, empty/bad JSON, missing score key,
non-numeric or out-of-range score) falls back to `getMockScores`. The pitch
text only influences the upstream reply, which is the `upstream` parameter,
so the function ignores it. -/
def analyzeWithMistral (rand : ℕ → ℚ) (hasApiKey : Bool)
    (upstream : UpstreamOutcome) (now : ℕ) (_pitchText : String) : Scores :=
  if !hasApiKey then getMockScores rand now
  else
    match upstream with
    | .netError => getMockScores rand now
    | .timeout => getMockScores rand now
    | .non2xx _ => getMockScores rand now
    | .okBody none => getMockScores rand now
    | .okBody (some raw) =>
      match raw.clarity, raw.originality, raw.team_strength, raw.market_fit with
      | some c, some o, some t, some m =>
        if 0 ≤ c ∧ c ≤ 10 ∧ 0 ≤ o ∧ o ≤ 10 ∧ 0 ≤ t ∧ t ≤ 10 ∧ 0 ≤ m ∧ m ≤ 10
        then { clarity := c, originality := o, team_strength := t, market_fit := m }
        else getMockScores rand now
      | _, _, _, _ => getMockScores rand now

/-! ### Receipt (`generateReceipt`, route.ts lines 429-434) -/

/-- Embeds `JSON.stringify(scores, Object.keys(scores).sort())`: the replacer array
is the lexicographically sorted key list
clarity, market_fit, originality, team_strength, so the object serializes
with exactly those keys in that order. `numStr` is JS number printing. -/
def scoresJson (numStr : ℚ → String) (s : Scores) : String :=
  "\x7b\"clarity\":" ++ numStr s.clarity ++
  ",\"market_fit\":" ++ numStr s.market_fit ++
  ",\"originality\":" ++ numStr s.originality ++
  ",\"team_strength\":" ++ numStr s.team_strength ++ "\x7d"

/-- Embeds `generateReceipt`: SHA-256 (the `hash` parameter) of
`ciphertext|model|timestamp|canonicalScores`. -/
def generateReceipt (hash : String → String) (numStr : ℚ → String)
    (ciphertext modelName timestamp : String) (scores : Scores) : String :=
  hash (ciphertext ++ "|" ++ modelName ++ "|" ++ timestamp ++ "|" ++
        scoresJson numStr scores)

/-! ### Decryption (`decryptPitchData`, route.ts lines 268-306) -/

/-- Embeds `decryptPitchData`. `aeadDec key iv ct tag` embeds
`createDecipheriv aes-256-gcm / setAuthTag / update / final` (`none` =
authentication failure); `utf8dec` embeds UTF-8 `Buffer` decoding. All
throw paths collapse to `none` (the route catches and rethrows a single
generic error). -/
def decryptPitchData
    (aeadDec : List ℕ → List ℕ → List ℕ → List ℕ → Option (List ℕ))
    (utf8dec : List ℕ → String)
    (ciphertext_b64 key_b64 iv_b64 : String) : Option String :=
  let ciphertext := bufferFromBase64 ciphertext_b64
  let key := bufferFromBase64 key_b64
  let iv := bufferFromBase64 iv_b64
  if key.length = 32 then
    if iv.length = 12 then
      let authTag := ciphertext.drop (ciphertext.length - 16)
      let encryptedData := ciphertext.take (ciphertext.length - 16)
      match aeadDec key iv encryptedData authTag with
      | some ptBytes =>
        let decrypted := utf8dec ptBytes
        if decrypted.length < 50 then none else some decrypted
      | none => none
    else none
  else none

/-! ### Client-side encryption (`encryptPitch`, encryption.ts lines 42-65) -/

/-- The transport envelope returned by `encryptPitch`. -/
structure Envelope where
  encryptedData : String
  key : String
  iv : String
deriving DecidableEq, Repr

/-- Embeds `encryptPitch`: fresh `key` and `iv` are parameters (randomness); `aeadEnc`
embeds `crypto.subtle.encrypt` with AES-GCM, whose output carries the
16-byte tag appended; `utf8enc` embeds `TextEncoder`. -/
def encryptPitch (aeadEnc : List ℕ → List ℕ → List ℕ → List ℕ)
    (utf8enc : String → List ℕ) (key iv : List ℕ) (pitch : String) : Envelope :=
  { encryptedData := b64Encode (aeadEnc key iv (utf8enc pitch))
    key := b64Encode key
    iv := b64Encode iv }

/-! ### Request coordinator (`POST`, route.ts lines 453-531) -/

/-- Embeds the expression body.model-or-default (JS `||` treats the empty
string as falsy). -/
def requestedModel (req : ScoreRequest) : String :=
  match req.model with
  | some m => if m = "" then "mistralai/mistral-small-2409" else m
  | none => "mistralai/mistral-small-2409"

/-- The POST /score handler. `none` for `body` models malformed JSON
(`request.json()` throwing). The `Buffer.from` format-validation `catch`
(route.ts lines 479-488) is unreachable for string fields because the Node
base64 decoding never throws, so it does not appear; `POSTFull` below
models the full request surface, including non-object bodies and
non-string field values. `nowA`/`nowT` are the
two `Date.now()` reads (inside `getMockScores` and for the timestamp). -/
def POST (hash : String → String) (numStr : ℚ → String) (rand : ℕ → ℚ)
    (aeadDec : List ℕ → List ℕ → List ℕ → List ℕ → Option (List ℕ))
    (utf8dec : List ℕ → String) (hasApiKey : Bool)
    (upstream : UpstreamOutcome) (nowA nowT : ℕ)
    (body : Option ScoreRequest) : Response :=
  match body with
  | none => { status := 400, body := .err "Invalid JSON in request body" }
  | some req =>
    if req.ciphertext.isNone ∨ req.aes_key.isNone ∨ req.iv.isNone then
      { status := 400, body := .err "Missing required encryption parameters" }
    else
      let ciphertext_b64 := req.ciphertext.getD ""
      let key_b64 := req.aes_key.getD ""
      let iv_b64 := req.iv.getD ""
      let modelName := requestedModel req
      match decryptPitchData aeadDec utf8dec ciphertext_b64 key_b64 iv_b64 with
      | none => { status := 400, body := .err "Failed to decrypt pitch data" }
      | some pitchText =>
        let sanitizedPitch := sanitizeInput pitchText
        let scores := analyzeWithMistral rand hasApiKey upstream nowA sanitizedPitch
        let timestamp := toString (nowT / 1000)
        let receipt := generateReceipt hash numStr ciphertext_b64 modelName
          timestamp scores
        { status := 200
          body := .result { scores := scores, receipt := receipt,
                            timestamp := timestamp, model := modelName } }

/-! ### Concrete instantiations of the platform parameters, for witnesses -/

def idHash : String → String := fun s => s

def oneHash : String → String := fun _ => "h"

def ratStr : ℚ → String := fun q => toString q

def halfRand : ℕ → ℚ := fun _ => 1/2

/-- A toy AEAD decryptor satisfying the abstract contract at the sample
points used in witnesses: accepts any ciphertext of length at most 64 and
returns it unchanged; rejects longer ones. -/
def sampleAeadDec : List ℕ → List ℕ → List ℕ → List ℕ → Option (List ℕ) :=
  fun _ _ ct _ => if ct.length ≤ 64 then some ct else none

/-- A toy AEAD encryptor matching `sampleAeadDec`: appends a 16-byte tag. -/
def sampleAeadEnc : List ℕ → List ℕ → List ℕ → List ℕ :=
  fun _ _ m => m ++ List.replicate 16 0

def sampleUtf8dec : List ℕ → String := fun l => String.mk (l.map Char.ofNat)

def sampleUtf8enc : String → List ℕ := fun s => s.data.map Char.toNat

def sampleKeyB64 : String := b64Encode (List.replicate 32 0)

def sampleIvB64 : String := b64Encode (List.replicate 12 0)

def sampleCtB64 : String := b64Encode (List.replicate 66 97)

def sampleReq : ScoreRequest :=
  { ciphertext := some sampleCtB64, aes_key := some sampleKeyB64,
    iv := some sampleIvB64, model := none }

/-! ### Shared validity predicates and helper lemmas -/

/-- All four score fields lie in the closed interval `[0, 10]`. -/
def scoresValid (s : Scores) : Prop :=
  (0 ≤ s.clarity ∧ s.clarity ≤ 10) ∧
  (0 ≤ s.originality ∧ s.originality ≤ 10) ∧
  (0 ≤ s.team_strength ∧ s.team_strength ≤ 10) ∧
  (0 ≤ s.market_fit ∧ s.market_fit ≤ 10)

instance (s : Scores) : Decidable (scoresValid s) := by
  unfold scoresValid; infer_instance

theorem round_div10_bounds {x : ℚ} (h0 : 0 ≤ x) (h1 : x ≤ 100) :
    0 ≤ ((round x : ℤ) : ℚ) / 10 ∧ ((round x : ℤ) : ℚ) / 10 ≤ 10 := by
  have hr0 : (0 : ℤ) ≤ round x := by
    rw [round_eq]
    exact Int.le_floor.mpr (by push_cast; linarith)
  have hr1 : round x ≤ 100 := by
    rw [round_eq]
    have h := Int.floor_lt.mpr (show x + 1/2 < ((101 : ℤ) : ℚ) by push_cast; linarith)
    omega
  constructor
  · exact div_nonneg (by exact_mod_cast hr0) (by norm_num)
  · rw [div_le_iff₀ (by norm_num : (0:ℚ) < 10)]
    have : ((round x : ℤ) : ℚ) ≤ 100 := by exact_mod_cast hr1
    linarith

theorem getMockScores_valid (rand : ℕ → ℚ)
    (hr : ∀ s, 0 ≤ rand s ∧ rand s < 1) (now : ℕ) :
    scoresValid (getMockScores rand now) := by
  obtain ⟨h0a, h1a⟩ := hr (now / 3600000)
  obtain ⟨h0b, h1b⟩ := hr (now / 3600000 + 1)
  obtain ⟨h0c, h1c⟩ := hr (now / 3600000 + 2)
  obtain ⟨h0d, h1d⟩ := hr (now / 3600000 + 3)
  refine ⟨?_, ?_, ?_, ?_⟩
  · exact round_div10_bounds (by nlinarith) (by nlinarith)
  · exact round_div10_bounds (by nlinarith) (by nlinarith)
  · exact round_div10_bounds (by nlinarith) (by nlinarith)
  · exact round_div10_bounds (by nlinarith) (by nlinarith)

theorem mem_jsTrim {c : Char} {l : List Char} (h : c ∈ jsTrim l) : c ∈ l := by
  unfold jsTrim at h
  rw [List.mem_reverse] at h
  have h1 := (List.dropWhile_sublist _).subset h
  rw [List.mem_reverse] at h1
  exact (List.dropWhile_sublist _).subset h1

theorem jsTrim_length_le (l : List Char) : (jsTrim l).length ≤ l.length := by
  unfold jsTrim
  rw [List.length_reverse]
  calc ((l.dropWhile isJsWs).reverse.dropWhile isJsWs).length
      ≤ (l.dropWhile isJsWs).reverse.length := (List.dropWhile_sublist _).length_le
    _ = (l.dropWhile isJsWs).length := List.length_reverse _
    _ ≤ l.length := (List.dropWhile_sublist _).length_le

/-- Claim C7: `sanitizeInput` is a pure function (it is a Lean function of
its input string alone) whose output contains no angle brackets, double or
single quotes, or ampersands, for every input string. -/
theorem sanitizeInput_strips_dangerous (s : String) :
    (sanitizeInput s).data.all
      (fun c => !(c == '<' || c == '>' || c == Char.ofNat 34 ||
                  c == Char.ofNat 39 || c == '&')) = true := by
  rw [List.all_eq_true]
  intro c hc
  have hmem : c ∈ ((((s.data.filter (fun c => !(c == '<'))).filter
      (fun c => !(c == '>'))).filter
      (fun c => !(c == '&'))).filter
      (fun c => !(c == Char.ofNat 34))).filter
      (fun c => !(c == Char.ofNat 39)) := by
    simp only [sanitizeInput] at hc
    split at hc
    · exact List.take_subset _ _ hc
    · exact mem_jsTrim hc
  obtain ⟨h4, h39⟩ := List.mem_filter.mp hmem
  obtain ⟨h3, h34⟩ := List.mem_filter.mp h4
  obtain ⟨h2, hamp⟩ := List.mem_filter.mp h3
  obtain ⟨h1, hgt⟩ := List.mem_filter.mp h2
  obtain ⟨_, hlt⟩ := List.mem_filter.mp h1
  simp only [Bool.not_eq_true', beq_eq_false_iff_ne, ne_eq] at h39 h34 hamp hgt hlt
  simp [h39, h34, hamp, hgt, hlt]

/-- Claim C8: the mock tier scorer is total (it is a Lean function, defined
on every input) and deterministic within a time bucket: two invocations
whose `Date.now()` readings fall in the same hour bucket return identical
ScoreSets, and every ScoreSet it returns is valid (all fields in [0,10]),
given that the embedded `Math.sin`-derived `rand` always lies in `[0,1)`. -/
theorem getMockScores_deterministic_valid (rand : ℕ → ℚ)
    (hr : ∀ s, 0 ≤ rand s ∧ rand s < 1) (n1 n2 : ℕ)
    (hb : n1 / 3600000 = n2 / 3600000) :
    getMockScores rand n1 = getMockScores rand n2 ∧
      scoresValid (getMockScores rand n1) := by
  constructor
  · unfold getMockScores
    rw [hb]
  · exact getMockScores_valid rand hr n1

/-- Witness for C8 at `rand = 1/2`, times 0 and 3599999 ms (same hour
bucket). -/
theorem getMockScores_deterministic_valid_witness :
    getMockScores halfRand 0 = getMockScores halfRand 3599999 ∧
      scoresValid (getMockScores halfRand 0) :=
  getMockScores_deterministic_valid halfRand
    (fun _ => ⟨by norm_num [halfRand], by norm_num [halfRand]⟩)
    0 3599999 (by norm_num)

/-- Claim C6 (amended): the route enforces the 50-character minimum on the
decrypted content before sanitization (shorter content never leaves
`decryptPitchData`), and the sanitized content consumed by scoring is at
most 10,000 characters; sanitization may however strip or trim the content
below 50 characters. -/
theorem length_policy :
    (∀ aeadDec utf8dec ct_b64 key_b64 iv_b64 pt,
        decryptPitchData aeadDec utf8dec ct_b64 key_b64 iv_b64 = some pt →
        50 ≤ pt.length) ∧
    (∀ s : String, (sanitizeInput s).length ≤ 10000) := by
  constructor
  · intro aeadDec utf8dec ct_b64 key_b64 iv_b64 pt h
    simp only [decryptPitchData] at h
    split at h
    · split at h
      · split at h
        · split at h
          · exact absurd h (by simp)
          · rw [Option.some.injEq] at h
            subst h
            omega
        · exact absurd h (by simp)
      · exact absurd h (by simp)
    · exact absurd h (by simp)
  · intro s
    simp only [sanitizeInput]
    split
    · next h =>
      show (List.take 10000 _).length ≤ 10000
      rw [List.length_take]
      omega
    · next h =>
      show (jsTrim _).length ≤ 10000
      exact le_trans (jsTrim_length_le _) (by omega)

/-- Witness for C6 (amended) on a 50-character plaintext of letters. -/
theorem length_policy_witness :
    decryptPitchData sampleAeadDec sampleUtf8dec sampleCtB64 sampleKeyB64
        sampleIvB64 = some (String.mk (List.replicate 50 'a')) ∧
      50 ≤ (String.mk (List.replicate 50 'a')).length ∧
      (sanitizeInput (String.mk (List.replicate 50 'a'))).length ≤ 10000 :=
  ⟨by rfl,
   length_policy.1 sampleAeadDec sampleUtf8dec sampleCtB64 sampleKeyB64
     sampleIvB64 _ (by rfl),
   length_policy.2 _⟩

/-- Counterexample to claim C6 as stated: a 50-character decrypted content
of `<` characters passes the pre-sanitization minimum-length check, yet
sanitization strips every character, so the plaintext consumed by scoring
has length 0, outside [50, 10000]; the request still yields a 200. -/
theorem length_policy_cex :
    decryptPitchData sampleAeadDec sampleUtf8dec
        (b64Encode (List.replicate 66 60)) sampleKeyB64 sampleIvB64 =
      some (String.mk (List.replicate 50 '<')) ∧
    (sanitizeInput (String.mk (List.replicate 50 '<'))).length = 0 ∧
    (POST oneHash ratStr halfRand sampleAeadDec sampleUtf8dec true .netError 0 0
      (some { ciphertext := some (b64Encode (List.replicate 66 60)),
              aes_key := some sampleKeyB64, iv := some sampleIvB64,
              model := none })).status = 200 :=
  ⟨by rfl, by rfl, by rfl⟩

/-- Claim C3: for every plaintext of 50 to 10,000 characters, decrypting
the envelope produced by `encryptPitch` returns exactly the plaintext,
given the AEAD and UTF-8 codec contracts of the platform primitives: the
AEAD output is ciphertext with a 16-byte tag appended and decrypting that
split verifies, and the UTF-8 decode inverts the encode. -/
theorem encrypt_decrypt_roundtrip
    (aeadEnc : List ℕ → List ℕ → List ℕ → List ℕ)
    (aeadDec : List ℕ → List ℕ → List ℕ → List ℕ → Option (List ℕ))
    (utf8enc : String → List ℕ) (utf8dec : List ℕ → String)
    (key iv : List ℕ) (p : String)
    (hkeyLen : key.length = 32) (hkeyB : ∀ b ∈ key, b < 256)
    (hivLen : iv.length = 12) (hivB : ∀ b ∈ iv, b < 256)
    (hctB : ∀ b ∈ aeadEnc key iv (utf8enc p), b < 256)
    (hsplit : ∃ ct tag, aeadEnc key iv (utf8enc p) = ct ++ tag ∧
              tag.length = 16 ∧ aeadDec key iv ct tag = some (utf8enc p))
    (hutf : utf8dec (utf8enc p) = p)
    (hlo : 50 ≤ p.length) (hhi : p.length ≤ 10000) :
    decryptPitchData aeadDec utf8dec
      (encryptPitch aeadEnc utf8enc key iv p).encryptedData
      (encryptPitch aeadEnc utf8enc key iv p).key
      (encryptPitch aeadEnc utf8enc key iv p).iv = some p := by
  obtain ⟨ct, tag, henc, htag, hdec⟩ := hsplit
  simp only [encryptPitch, decryptPitchData]
  rw [bufferFromBase64_b64Encode key hkeyB, bufferFromBase64_b64Encode iv hivB,
      bufferFromBase64_b64Encode _ hctB]
  rw [if_pos hkeyLen, if_pos hivLen, henc]
  have hlen : (ct ++ tag).length - 16 = ct.length := by
    rw [List.length_append, htag]
    omega
  rw [hlen, List.take_left, List.drop_left, hdec]
  simp only [hutf]
  rw [if_neg (by omega : ¬ p.length < 50)]

/-- Witness for C3 on a 50-character plaintext with a toy AEAD satisfying
the contract. -/
theorem encrypt_decrypt_roundtrip_witness :
    decryptPitchData sampleAeadDec sampleUtf8dec
      (encryptPitch sampleAeadEnc sampleUtf8enc (List.replicate 32 0)
        (List.replicate 12 0) (String.mk (List.replicate 50 'a'))).encryptedData
      (encryptPitch sampleAeadEnc sampleUtf8enc (List.replicate 32 0)
        (List.replicate 12 0) (String.mk (List.replicate 50 'a'))).key
      (encryptPitch sampleAeadEnc sampleUtf8enc (List.replicate 32 0)
        (List.replicate 12 0) (String.mk (List.replicate 50 'a'))).iv =
      some (String.mk (List.replicate 50 'a')) :=
  encrypt_decrypt_roundtrip sampleAeadEnc sampleAeadDec sampleUtf8enc
    sampleUtf8dec (List.replicate 32 0) (List.replicate 12 0)
    (String.mk (List.replicate 50 'a'))
    rfl (by decide) rfl (by decide) (by decide)
    ⟨sampleUtf8enc (String.mk (List.replicate 50 'a')), List.replicate 16 0,
      rfl, rfl, by rfl⟩
    rfl (by decide) (by decide)

/-! ### POST-level theorems -/

/-- The AnalysisResult a successful sample run produces: mock scores (the
upstream netError forces the mock fallback) under the default Primary
model name. -/
def sampleResult : AnalysisResult :=
  { scores := getMockScores halfRand 0
    receipt := generateReceipt idHash ratStr sampleCtB64
      "mistralai/mistral-small-2409" "0" (getMockScores halfRand 0)
    timestamp := "0"
    model := "mistralai/mistral-small-2409" }

/-- Claim C2: for every 200 response of POST /score, the returned receipt
equals the hash (SHA-256 in the code; a parameter here) of the string
joining the base64 ciphertext of the request, the returned model, the returned
timestamp, and the canonical lexicographically key-sorted JSON
serialization of the returned scores, with the `|` delimiter — so the
receipt is recomputable from the returned fields plus the ciphertext. -/
theorem post_receipt_recomputable
    (hash : String → String) (numStr : ℚ → String) (rand : ℕ → ℚ)
    (aeadDec : List ℕ → List ℕ → List ℕ → List ℕ → Option (List ℕ))
    (utf8dec : List ℕ → String) (hasApiKey : Bool)
    (upstream : UpstreamOutcome) (nowA nowT : ℕ)
    (req : ScoreRequest) (r : AnalysisResult)
    (h : POST hash numStr rand aeadDec utf8dec hasApiKey upstream nowA nowT
        (some req) = { status := 200, body := .result r }) :
    r.receipt = hash ((req.ciphertext.getD "") ++ "|" ++ r.model ++ "|" ++
      r.timestamp ++ "|" ++ scoresJson numStr r.scores) := by
  simp only [POST] at h
  split at h
  · exact absurd h (by simp)
  · split at h
    · exact absurd h (by simp)
    · simp only [Response.mk.injEq, ResponseBody.result.injEq] at h
      obtain ⟨-, h2⟩ := h
      subst h2
      rfl

/-- Witness for C2 on a concrete run (upstream netError, identity hash). -/
theorem post_receipt_recomputable_witness :
    sampleResult.receipt = idHash ((sampleReq.ciphertext.getD "") ++ "|" ++
      sampleResult.model ++ "|" ++ sampleResult.timestamp ++ "|" ++
      scoresJson ratStr sampleResult.scores) :=
  post_receipt_recomputable idHash ratStr halfRand sampleAeadDec sampleUtf8dec
    true .netError 0 0 sampleReq sampleResult (by rfl)

/-- Claim C1 (amended): the `model` field of every 200 response equals the
client-requested model name (or the default Primary identity
`mistralai/mistral-small-2409` when absent or empty), regardless of which
tier actually produced the scores; when the Primary upstream fails the
scores come from the mock scorer but `model` still names Primary — the
code never records the answering tier and has no Fallback tier or mock
identity. -/
theorem post_model_is_requested
    (hash : String → String) (numStr : ℚ → String) (rand : ℕ → ℚ)
    (aeadDec : List ℕ → List ℕ → List ℕ → List ℕ → Option (List ℕ))
    (utf8dec : List ℕ → String) (hasApiKey : Bool)
    (upstream : UpstreamOutcome) (nowA nowT : ℕ)
    (req : ScoreRequest) (r : AnalysisResult)
    (h : POST hash numStr rand aeadDec utf8dec hasApiKey upstream nowA nowT
        (some req) = { status := 200, body := .result r }) :
    r.model = requestedModel req := by
  simp only [POST] at h
  split at h
  · exact absurd h (by simp)
  · split at h
    · exact absurd h (by simp)
    · simp only [Response.mk.injEq, ResponseBody.result.injEq] at h
      obtain ⟨-, h2⟩ := h
      subst h2
      rfl

/-- Witness for C1 (amended) on a concrete run. -/
theorem post_model_is_requested_witness :
    sampleResult.model = requestedModel sampleReq :=
  post_model_is_requested idHash ratStr halfRand sampleAeadDec sampleUtf8dec
    true .netError 0 0 sampleReq sampleResult (by rfl)

/-- Counterexample to claim C1 as stated: with the Primary upstream
failing (network error) and no model pinned, the handler returns 200 whose
scores are exactly those of the mock scorer, yet whose `model` field is the
identity of the Primary tier that failed, `mistralai/mistral-small-2409`
— not a mock identity (none exists in the code). -/
theorem post_model_names_failed_tier_cex :
    POST idHash ratStr halfRand sampleAeadDec sampleUtf8dec true
        UpstreamOutcome.netError 0 0 (some sampleReq) =
      { status := 200, body := .result sampleResult } ∧
    sampleResult.scores = getMockScores halfRand 0 ∧
    sampleResult.model = "mistralai/mistral-small-2409" :=
  ⟨by rfl, by rfl, by rfl⟩

/-- Validity (all fields in [0,10]) of whatever `analyzeWithMistral`
returns: upstream scores pass only after the explicit range check; every
failure path returns mock scores, valid when `rand` lies in `[0,1)`. -/
theorem analyzeWithMistral_valid (rand : ℕ → ℚ)
    (hr : ∀ s, 0 ≤ rand s ∧ rand s < 1) (hasApiKey : Bool)
    (upstream : UpstreamOutcome) (now : ℕ) (text : String) :
    scoresValid (analyzeWithMistral rand hasApiKey upstream now text) := by
  unfold analyzeWithMistral
  split
  · exact getMockScores_valid rand hr now
  · split
    · exact getMockScores_valid rand hr now
    · exact getMockScores_valid rand hr now
    · exact getMockScores_valid rand hr now
    · exact getMockScores_valid rand hr now
    · split
      · split
        · next hcond =>
          obtain ⟨h1, h2, h3, h4, h5, h6, h7, h8⟩ := hcond
          exact ⟨⟨h1, h2⟩, ⟨h3, h4⟩, ⟨h5, h6⟩, ⟨h7, h8⟩⟩
        · exact getMockScores_valid rand hr now
      · exact getMockScores_valid rand hr now

/-- The scores carried by a response, when it is a success. -/
def respScoresValid (resp : Response) : Prop :=
  match resp.body with
  | .result r => scoresValid r.scores
  | .err _ => True

/-- Claim C4: every 200 response of POST /score carries four score fields
in [0, 10], whichever tier (validated upstream reply or mock fallback)
produced them, given that the embedded mock randomness lies in `[0,1)`. -/
theorem post_scores_in_range
    (hash : String → String) (numStr : ℚ → String) (rand : ℕ → ℚ)
    (aeadDec : List ℕ → List ℕ → List ℕ → List ℕ → Option (List ℕ))
    (utf8dec : List ℕ → String) (hasApiKey : Bool)
    (upstream : UpstreamOutcome) (nowA nowT : ℕ)
    (body : Option ScoreRequest)
    (hr : ∀ s, 0 ≤ rand s ∧ rand s < 1) :
    respScoresValid
      (POST hash numStr rand aeadDec utf8dec hasApiKey upstream nowA nowT
        body) := by
  cases body with
  | none => simp [POST, respScoresValid]
  | some req =>
    simp only [POST]
    split
    · simp [respScoresValid]
    · split
      · simp [respScoresValid]
      · simp only [respScoresValid]
        exact analyzeWithMistral_valid rand hr hasApiKey upstream nowA _

/-- Witness for C4: a concrete run returning 200 with mock scores. -/
theorem post_scores_in_range_witness :
    respScoresValid
      (POST idHash ratStr halfRand sampleAeadDec sampleUtf8dec true
        UpstreamOutcome.netError 0 0 (some sampleReq)) :=
  post_scores_in_range idHash ratStr halfRand sampleAeadDec sampleUtf8dec
    true UpstreamOutcome.netError 0 0 (some sampleReq)
    (fun _ => ⟨by norm_num [halfRand], by norm_num [halfRand]⟩)

/-- The generic error messages the handler can emit (route.ts lines
460-461, 470, 485, 496, 527). -/
def errorMessages : List String :=
  ["Invalid JSON in request body", "Missing required encryption parameters",
   "Invalid base64 encoding", "Failed to decrypt pitch data",
   "Internal server error"]

/-- Claim C9: the response body never carries the decrypted plaintext, the
AES key, or the IV — read structurally, as the claim itself glosses it:
every response is either a 200 whose body is exactly the four-field
AnalysisResult (scores, receipt, timestamp, model), or an error whose body
is a one-field generic message drawn from a fixed literal list that is
independent of the request. -/
theorem post_response_shape
    (hash : String → String) (numStr : ℚ → String) (rand : ℕ → ℚ)
    (aeadDec : List ℕ → List ℕ → List ℕ → List ℕ → Option (List ℕ))
    (utf8dec : List ℕ → String) (hasApiKey : Bool)
    (upstream : UpstreamOutcome) (nowA nowT : ℕ)
    (body : Option ScoreRequest) :
    (∃ r, POST hash numStr rand aeadDec utf8dec hasApiKey upstream nowA nowT
        body = { status := 200, body := .result r }) ∨
    (∃ m, m ∈ errorMessages ∧
      POST hash numStr rand aeadDec utf8dec hasApiKey upstream nowA nowT
        body = { status := 400, body := .err m }) := by
  cases body with
  | none => exact Or.inr ⟨_, by simp [errorMessages], rfl⟩
  | some req =>
    simp only [POST]
    split
    · exact Or.inr ⟨_, by simp [errorMessages], rfl⟩
    · split
      · exact Or.inr ⟨_, by simp [errorMessages], rfl⟩
      · exact Or.inl ⟨_, rfl⟩

/-- JSON value of a request field, at the granularity the format
validation distinguishes: a string, which `Buffer.from` decodes
leniently, or a value on which `Buffer.from` throws a TypeError (a
number, boolean, null, or nested object), hitting the
Invalid-base64-encoding 400 branch (route.ts lines 479-488). JSON arrays
of numbers, which `Buffer.from` accepts as raw byte arrays, are outside
the model. -/
inductive FieldValue where
  | str (s : String)
  | nonStr
deriving DecidableEq, Repr

/-- The full POST /score request object: any present field may hold a
non-string JSON value. `model` is read only through the JS or-default,
so non-string model values are not distinguished. -/
structure FullRequest where
  ciphertext : Option FieldValue
  aes_key : Option FieldValue
  iv : Option FieldValue
  model : Option String
deriving DecidableEq, Repr

/-- A successfully parsed JSON request body: a JSON object carrying the
fields, or a non-object JSON value (null, number, string, boolean) on
which the membership check `field in body` throws a TypeError that
reaches the outer catch (route.ts lines 468, 524-529). -/
inductive JsonBody where
  | primitive
  | obj (req : FullRequest)
deriving DecidableEq, Repr

/-- Embeds `decryptPitchData` with the base64 decoder as an explicit
platform parameter: `Buffer.from` is Node, not repository code, and its
lenient behaviour on non-canonical input (for example unpadded base64)
is left uncommitted, so theorems over every `b64dec` cover the real
decoder. `bufferFromBase64` is one instance. -/
def decryptPitchDataWith (b64dec : String → List ℕ)
    (aeadDec : List ℕ → List ℕ → List ℕ → List ℕ → Option (List ℕ))
    (utf8dec : List ℕ → String)
    (ciphertext_b64 key_b64 iv_b64 : String) : Option String :=
  let ciphertext := b64dec ciphertext_b64
  let key := b64dec key_b64
  let iv := b64dec iv_b64
  if key.length = 32 then
    if iv.length = 12 then
      let authTag := ciphertext.drop (ciphertext.length - 16)
      let encryptedData := ciphertext.take (ciphertext.length - 16)
      match aeadDec key iv encryptedData authTag with
      | some ptBytes =>
        let decrypted := utf8dec ptBytes
        if decrypted.length < 50 then none else some decrypted
      | none => none
    else none
  else none

/-- The POST /score handler over the full request surface: malformed
JSON gives 400; a valid-JSON non-object body makes the `in` check throw,
so the outer catch answers 500; missing fields give 400; a present field
on which `Buffer.from` throws gives the Invalid-base64-encoding 400;
then decryption and scoring proceed as in `POST`. -/
def POSTFull (b64dec : String → List ℕ) (hash : String → String)
    (numStr : ℚ → String) (rand : ℕ → ℚ)
    (aeadDec : List ℕ → List ℕ → List ℕ → List ℕ → Option (List ℕ))
    (utf8dec : List ℕ → String) (hasApiKey : Bool)
    (upstream : UpstreamOutcome) (nowA nowT : ℕ)
    (body : Option JsonBody) : Response :=
  match body with
  | none => { status := 400, body := .err "Invalid JSON in request body" }
  | some .primitive => { status := 500, body := .err "Internal server error" }
  | some (.obj req) =>
    if req.ciphertext.isNone ∨ req.aes_key.isNone ∨ req.iv.isNone then
      { status := 400, body := .err "Missing required encryption parameters" }
    else
      match req.ciphertext.getD .nonStr, req.aes_key.getD .nonStr,
            req.iv.getD .nonStr with
      | .str ciphertext_b64, .str key_b64, .str iv_b64 =>
        let modelName := match req.model with
          | some m => if m = "" then "mistralai/mistral-small-2409" else m
          | none => "mistralai/mistral-small-2409"
        match decryptPitchDataWith b64dec aeadDec utf8dec ciphertext_b64
            key_b64 iv_b64 with
        | none => { status := 400, body := .err "Failed to decrypt pitch data" }
        | some pitchText =>
          let sanitizedPitch := sanitizeInput pitchText
          let scores := analyzeWithMistral rand hasApiKey upstream nowA
            sanitizedPitch
          let timestamp := toString (nowT / 1000)
          let receipt := generateReceipt hash numStr ciphertext_b64 modelName
            timestamp scores
          { status := 200
            body := .result { scores := scores, receipt := receipt,
                              timestamp := timestamp, model := modelName } }
      | _, _, _ =>
        { status := 400, body := .err "Invalid base64 encoding" }

/-- Claim C5 (amended): POST /score returns 400 with a generic one-field
error body exactly when the body is malformed JSON, the body is a JSON
object missing one of ciphertext/aes_key/iv, a present required field
holds a value on which `Buffer.from` throws (a non-string), or the
decryption step fails (wrong key or IV byte length after the lenient
base64 decode, AEAD authentication failure, or decrypted content shorter
than 50 characters); decrypted content longer than 10,000 characters is
truncated and scored with 200, not rejected; and the remaining
processing failure — a valid-JSON non-object body, on which the
field-membership check throws — returns 500. Proved for every base64
decoder, so the lenient Node decoder is covered. -/
theorem post_full_status_400_iff
    (b64dec : String → List ℕ) (hash : String → String)
    (numStr : ℚ → String) (rand : ℕ → ℚ)
    (aeadDec : List ℕ → List ℕ → List ℕ → List ℕ → Option (List ℕ))
    (utf8dec : List ℕ → String) (hasApiKey : Bool)
    (upstream : UpstreamOutcome) (nowA nowT : ℕ) (body : Option JsonBody) :
    ((POSTFull b64dec hash numStr rand aeadDec utf8dec hasApiKey upstream
        nowA nowT body).status = 400 ↔
      (body = none ∨ ∃ req, body = some (.obj req) ∧
        (req.ciphertext.isNone ∨ req.aes_key.isNone ∨ req.iv.isNone ∨
         req.ciphertext = some .nonStr ∨ req.aes_key = some .nonStr ∨
         req.iv = some .nonStr ∨
         ∃ ct k iv, req.ciphertext = some (.str ct) ∧
           req.aes_key = some (.str k) ∧ req.iv = some (.str iv) ∧
           decryptPitchDataWith b64dec aeadDec utf8dec ct k iv = none))) ∧
    ((POSTFull b64dec hash numStr rand aeadDec utf8dec hasApiKey upstream
        nowA nowT body).status = 500 ↔ body = some .primitive) ∧
    ((POSTFull b64dec hash numStr rand aeadDec utf8dec hasApiKey upstream
        nowA nowT body).status = 200 ∨
     (POSTFull b64dec hash numStr rand aeadDec utf8dec hasApiKey upstream
        nowA nowT body).status = 400 ∨
     (POSTFull b64dec hash numStr rand aeadDec utf8dec hasApiKey upstream
        nowA nowT body).status = 500) ∧
    (∀ m, (POSTFull b64dec hash numStr rand aeadDec utf8dec hasApiKey
        upstream nowA nowT body).body = .err m → m ∈ errorMessages) := by
  cases body with
  | none =>
    refine ⟨by simp [POSTFull], by simp [POSTFull],
      Or.inr (Or.inl (by simp [POSTFull])), ?_⟩
    intro m hm
    injection hm with h
    subst h
    decide
  | some jb =>
    cases jb with
    | primitive =>
      refine ⟨by simp [POSTFull], by simp [POSTFull],
        Or.inr (Or.inr (by simp [POSTFull])), ?_⟩
      intro m hm
      injection hm with h
      subst h
      decide
    | obj req =>
      simp only [POSTFull]
      by_cases hm : req.ciphertext.isNone ∨ req.aes_key.isNone ∨ req.iv.isNone
      · rw [if_pos hm]
        refine ⟨⟨fun _ => Or.inr ⟨req, rfl, by tauto⟩, fun _ => rfl⟩,
          ⟨fun h => absurd h (by simp), fun h => absurd h (by simp)⟩,
          Or.inr (Or.inl rfl), ?_⟩
        intro m hm2
        injection hm2 with h
        subst h
        decide
      · rw [if_neg hm]
        obtain ⟨v1, hv1⟩ : ∃ v, req.ciphertext = some v := by
          cases hx : req.ciphertext
          · exact absurd (Or.inl (by simp [hx])) hm
          · exact ⟨_, rfl⟩
        obtain ⟨v2, hv2⟩ : ∃ v, req.aes_key = some v := by
          cases hx : req.aes_key
          · exact absurd (Or.inr (Or.inl (by simp [hx]))) hm
          · exact ⟨_, rfl⟩
        obtain ⟨v3, hv3⟩ : ∃ v, req.iv = some v := by
          cases hx : req.iv
          · exact absurd (Or.inr (Or.inr (by simp [hx]))) hm
          · exact ⟨_, rfl⟩
        rw [hv1, hv2, hv3]
        simp only [Option.getD_some]
        cases v1 with
        | nonStr =>
          cases v2 <;> cases v3 <;>
          · refine ⟨⟨fun _ => Or.inr ⟨req, rfl, by tauto⟩, fun _ => rfl⟩,
              ⟨fun h => absurd h (by simp), fun h => absurd h (by simp)⟩,
              Or.inr (Or.inl rfl), ?_⟩
            intro m hm2
            injection hm2 with h
            subst h
            decide
        | str s1 =>
          cases v2 with
          | nonStr =>
            cases v3 <;>
            · refine ⟨⟨fun _ => Or.inr ⟨req, rfl, by tauto⟩, fun _ => rfl⟩,
                ⟨fun h => absurd h (by simp), fun h => absurd h (by simp)⟩,
                Or.inr (Or.inl rfl), ?_⟩
              intro m hm2
              injection hm2 with h
              subst h
              decide
          | str s2 =>
            cases v3 with
            | nonStr =>
              refine ⟨⟨fun _ => Or.inr ⟨req, rfl, by tauto⟩, fun _ => rfl⟩,
                ⟨fun h => absurd h (by simp), fun h => absurd h (by simp)⟩,
                Or.inr (Or.inl rfl), ?_⟩
              intro m hm2
              injection hm2 with h
              subst h
              decide
            | str s3 =>
              dsimp only
              cases hdec : decryptPitchDataWith b64dec aeadDec utf8dec s1 s2
                  s3 with
              | none =>
                refine ⟨⟨fun _ => Or.inr ⟨req, rfl, Or.inr (Or.inr (Or.inr
                    (Or.inr (Or.inr (Or.inr
                      ⟨s1, s2, s3, hv1, hv2, hv3, hdec⟩)))))⟩,
                    fun _ => rfl⟩,
                  ⟨fun h => absurd h (by simp), fun h => absurd h (by simp)⟩,
                  Or.inr (Or.inl rfl), ?_⟩
                intro m hm2
                injection hm2 with h
                subst h
                decide
              | some pt =>
                refine ⟨⟨fun h => absurd h (by simp), ?_⟩,
                  ⟨fun h => absurd h (by simp), fun h => absurd h (by simp)⟩,
                  Or.inl rfl, ?_⟩
                · intro h
                  rcases h with h | ⟨req2, heq, hcond⟩
                  · exact absurd h (by simp)
                  · rw [Option.some.injEq, JsonBody.obj.injEq] at heq
                    subst heq
                    simp [hv1, hv2, hv3, hdec] at hcond
                · intro m hm2
                  exact absurd hm2 (by simp)

/-- An AEAD stand-in whose decryption yields an over-long plaintext,
exhibiting the truncation policy. -/
def longAeadDec : List ℕ → List ℕ → List ℕ → List ℕ → Option (List ℕ) :=
  fun _ _ _ _ => some (List.replicate 10001 97)

/-- A 200 status follows whenever all three fields are present and
decryption succeeds. -/
theorem POST_success_status
    (hash : String → String) (numStr : ℚ → String) (rand : ℕ → ℚ)
    (aeadDec : List ℕ → List ℕ → List ℕ → List ℕ → Option (List ℕ))
    (utf8dec : List ℕ → String) (hasApiKey : Bool)
    (upstream : UpstreamOutcome) (nowA nowT : ℕ)
    (ct k iv : String) (m : Option String) (pt : String)
    (hdec : decryptPitchData aeadDec utf8dec ct k iv = some pt) :
    (POST hash numStr rand aeadDec utf8dec hasApiKey upstream nowA nowT
      (some ⟨some ct, some k, some iv, m⟩)).status = 200 := by
  simp only [POST, Option.getD_some]
  rw [if_neg (by simp)]
  rw [hdec]

/-- Counterexample to claim C5 as stated: a request whose decrypted
content has 10,001 characters — outside the length bounds — is not
rejected with 400; the handler truncates and returns 200. -/
theorem post_overlong_returns_200_cex :
    decryptPitchData longAeadDec sampleUtf8dec "" sampleKeyB64 sampleIvB64 =
      some (String.mk (List.replicate 10001 'a')) ∧
    10000 < (String.mk (List.replicate 10001 'a')).length ∧
    (POST oneHash ratStr halfRand longAeadDec sampleUtf8dec true
      UpstreamOutcome.netError 0 0
      (some { ciphertext := some "", aes_key := some sampleKeyB64,
              iv := some sampleIvB64, model := none })).status = 200 := by
  have hk : bufferFromBase64 sampleKeyB64 = List.replicate 32 0 :=
    bufferFromBase64_b64Encode _ (by decide)
  have hiv : bufferFromBase64 sampleIvB64 = List.replicate 12 0 :=
    bufferFromBase64_b64Encode _ (by decide)
  have hmap : (List.replicate 10001 97).map Char.ofNat =
      List.replicate 10001 'a' := by
    rw [List.map_replicate]
  have hlen : (String.mk (List.replicate 10001 'a')).length = 10001 := by
    show (List.replicate 10001 'a').length = 10001
    rw [List.length_replicate]
  have hdec : decryptPitchData longAeadDec sampleUtf8dec "" sampleKeyB64
      sampleIvB64 = some (String.mk (List.replicate 10001 'a')) := by
    simp only [decryptPitchData, longAeadDec, hk, hiv]
    rw [if_pos (by simp), if_pos (by simp)]
    simp only [sampleUtf8dec, hmap]
    rw [if_neg (by rw [hlen]; omega)]
  exact ⟨hdec, by rw [hlen]; omega,
    POST_success_status oneHash ratStr halfRand longAeadDec sampleUtf8dec
      true UpstreamOutcome.netError 0 0 "" sampleKeyB64 sampleIvB64 none
      (String.mk (List.replicate 10001 'a')) hdec⟩

/-- Claim C10: an envelope with well-formed key and IV whose AEAD check
passes but whose decrypted plaintext is shorter than 50 characters yields
exactly the same response — status 400, body
`Failed to decrypt pitch data` — as an envelope whose AEAD authentication
fails; the two failure causes are indistinguishable to the caller. -/
theorem post_short_eq_auth_failure
    (hash : String → String) (numStr : ℚ → String) (rand : ℕ → ℚ)
    (aeadDec : List ℕ → List ℕ → List ℕ → List ℕ → Option (List ℕ))
    (utf8dec : List ℕ → String) (hasApiKey : Bool)
    (upstream : UpstreamOutcome) (nowA nowT : ℕ)
    (ct1 k1 iv1 ct2 k2 iv2 : String) (pt : List ℕ)
    (h1k : (bufferFromBase64 k1).length = 32)
    (h1iv : (bufferFromBase64 iv1).length = 12)
    (h1dec : aeadDec (bufferFromBase64 k1) (bufferFromBase64 iv1)
        ((bufferFromBase64 ct1).take ((bufferFromBase64 ct1).length - 16))
        ((bufferFromBase64 ct1).drop ((bufferFromBase64 ct1).length - 16)) =
        some pt)
    (hshort : (utf8dec pt).length < 50)
    (h2k : (bufferFromBase64 k2).length = 32)
    (h2iv : (bufferFromBase64 iv2).length = 12)
    (h2dec : aeadDec (bufferFromBase64 k2) (bufferFromBase64 iv2)
        ((bufferFromBase64 ct2).take ((bufferFromBase64 ct2).length - 16))
        ((bufferFromBase64 ct2).drop ((bufferFromBase64 ct2).length - 16)) =
        none) :
    POST hash numStr rand aeadDec utf8dec hasApiKey upstream nowA nowT
        (some ⟨some ct1, some k1, some iv1, none⟩) =
      POST hash numStr rand aeadDec utf8dec hasApiKey upstream nowA nowT
        (some ⟨some ct2, some k2, some iv2, none⟩) ∧
    POST hash numStr rand aeadDec utf8dec hasApiKey upstream nowA nowT
        (some ⟨some ct1, some k1, some iv1, none⟩) =
      { status := 400, body := .err "Failed to decrypt pitch data" } := by
  have e1 : decryptPitchData aeadDec utf8dec ct1 k1 iv1 = none := by
    simp only [decryptPitchData]
    rw [if_pos h1k, if_pos h1iv, h1dec]
    simp only [if_pos hshort]
  have e2 : decryptPitchData aeadDec utf8dec ct2 k2 iv2 = none := by
    simp only [decryptPitchData]
    rw [if_pos h2k, if_pos h2iv, h2dec]
  have ep : POST hash numStr rand aeadDec utf8dec hasApiKey upstream nowA nowT
      (some ⟨some ct1, some k1, some iv1, none⟩) =
      { status := 400, body := .err "Failed to decrypt pitch data" } := by
    simp only [POST, Option.getD_some]
    rw [if_neg (by simp)]
    rw [e1]
  refine ⟨?_, ep⟩
  rw [ep]
  simp only [POST, Option.getD_some]
  rw [if_neg (by simp)]
  rw [e2]

/-- Witness for C10: a short-content envelope and a failing-authentication
envelope produce the identical 400 response. -/
theorem post_short_eq_auth_failure_witness :
    POST idHash ratStr halfRand sampleAeadDec sampleUtf8dec true
        UpstreamOutcome.netError 0 0
        (some ⟨some (b64Encode (List.replicate 20 97)), some sampleKeyB64,
               some sampleIvB64, none⟩) =
      POST idHash ratStr halfRand sampleAeadDec sampleUtf8dec true
        UpstreamOutcome.netError 0 0
        (some ⟨some (b64Encode (List.replicate 90 97)), some sampleKeyB64,
               some sampleIvB64, none⟩) ∧
    POST idHash ratStr halfRand sampleAeadDec sampleUtf8dec true
        UpstreamOutcome.netError 0 0
        (some ⟨some (b64Encode (List.replicate 20 97)), some sampleKeyB64,
               some sampleIvB64, none⟩) =
      { status := 400, body := .err "Failed to decrypt pitch data" } :=
  post_short_eq_auth_failure idHash ratStr halfRand sampleAeadDec
    sampleUtf8dec true UpstreamOutcome.netError 0 0
    (b64Encode (List.replicate 20 97)) sampleKeyB64 sampleIvB64
    (b64Encode (List.replicate 90 97)) sampleKeyB64 sampleIvB64
    (List.replicate 4 97)
    (by rfl) (by rfl) (by rfl) (by decide) (by rfl) (by rfl) (by rfl)

end PitchGuard
